import Mathlib

/-!
# RedMulE offload driver: configuration encoding and job handshake

Shallow embedding of `sw/hal_redmule.h` (the register-level HAL and
`redmule_cfg`) and of the register-offload path of `main` in `sw/redmule.c`
(`COMPLEX_OFFLOADER` not defined).

* Machine integers are natural numbers (bit patterns) reduced modulo `2 ^ w`;
  the C type `int` is a 32-bit two's-complement integer.
* A device access is an `Event`; a function with side effects returns the list
  of events it performs, in program order (the order of the statements).
* `HWPE_WRITE` and `HWPE_READ` are plain accesses through `int *`, not
  `volatile`. The source therefore fixes which accesses a call makes and the
  values stored, but not the order in which accesses reach the device between
  two calls of external functions, nor that a load inside a loop is repeated.
  Both liberties are explicit: `cfg_device_order` and `main_device_order` give
  the admissible device orders, `Build.reload_acquire` says whether the acquire
  loop loads the register again at each test.
* The compile-time switch `MX_ENABLE` is a boolean parameter.
* Console output (`printf`) is not a device access and is left out.
-/

namespace RedMulE

/-! ## Data model -/

/-- Modelled from the spec: the registers of the control region (section 6). The
macros giving their offsets live in `archi_redmule.h`, which is not part of the
sources at hand; a register is identified by the macro naming it in
`hal_redmule.h`, and distinct names denote distinct registers. -/
inductive Reg where
  | REDMULE_REG_X_PTR
  | REDMULE_REG_W_PTR
  | REDMULE_REG_Z_PTR
  | REDMULE_REG_X_EXP_PTR
  | REDMULE_REG_W_EXP_PTR
  | REDMULE_MCFG0_PTR
  | REDMULE_MCFG1_PTR
  | REDMULE_ARITH_PTR
  | REDMULE_TRIGGER
  | REDMULE_ACQUIRE
  | REDMULE_STATUS
  | REDMULE_SOFT_CLEAR
  deriving DecidableEq, Repr

/-- The two comparison routines `main` can call (declared in `redmule_utils.h`). -/
inductive Compare where
  | redmule16_compare_int
  | redmule8_compare_int
  deriving DecidableEq, Repr

/-- The reference buffer handed to the comparison. -/
inductive Golden where
  | golden
  | golden_mx
  deriving DecidableEq, Repr

/-- One observable step of the driver. -/
inductive Event where
  /-- The store `HWPE_WRITE(value, r)`; `value` is the 32-bit word stored. -/
  | write (r : Reg) (value : Nat)
  /-- The load `HWPE_READ(r)` that returned the `int` `value`. -/
  | read (r : Reg) (value : Int)
  /-- The instruction `wfi`: sleep until the accelerator signals completion. -/
  | wfi
  /-- A call `f(y, g, len)` of a comparison routine. -/
  | compare (f : Compare) (g : Golden) (len : Int)
  /-- The store `*(int *)0x80000000 = errors`. -/
  | store (errors : Int)
  deriving DecidableEq, Repr

/-! ## C integer types -/

/-- Conversion to `uint8_t`. -/
def uint8_t (n : Nat) : Nat := n % 2 ^ 8

/-- Conversion to `uint16_t`. -/
def uint16_t (n : Nat) : Nat := n % 2 ^ 16

/-- Conversion to `uint32_t` (and `unsigned int`). -/
def uint32_t (n : Nat) : Nat := n % 2 ^ 32

/-- The value of an `int` computation: the mathematical result wrapped into
`[-2^31, 2^31)` (two's complement, as the RV32 instructions compute it). -/
def int32_t (n : Int) : Int := (n + 2 ^ 31) % 2 ^ 32 - 2 ^ 31

/-! ## Low-level HAL (`hal_redmule.h`, lines 17-78) -/

/-- `HWPE_WRITE(value, offset)`: one plain 32-bit store to the register. -/
def HWPE_WRITE (value : Nat) (offset : Reg) : Event :=
  Event.write offset (uint32_t value)

/-- `HWPE_READ(offset)`: one plain 32-bit load, when the device answers `value`. -/
def HWPE_READ (offset : Reg) (value : Int) : Event :=
  Event.read offset value

def redmule_x_add_set (value : Nat) : List Event :=
  [HWPE_WRITE value Reg.REDMULE_REG_X_PTR]

def redmule_w_add_set (value : Nat) : List Event :=
  [HWPE_WRITE value Reg.REDMULE_REG_W_PTR]

def redmule_z_add_set (value : Nat) : List Event :=
  [HWPE_WRITE value Reg.REDMULE_REG_Z_PTR]

def redmule_x_exp_add_set (value : Nat) : List Event :=
  [HWPE_WRITE value Reg.REDMULE_REG_X_EXP_PTR]

def redmule_w_exp_add_set (value : Nat) : List Event :=
  [HWPE_WRITE value Reg.REDMULE_REG_W_EXP_PTR]

def redmule_mcfg_set (mcfg0 mcfg1 : Nat) : List Event :=
  [HWPE_WRITE mcfg0 Reg.REDMULE_MCFG0_PTR, HWPE_WRITE mcfg1 Reg.REDMULE_MCFG1_PTR]

def redmule_arith_set (arith : Nat) : List Event :=
  [HWPE_WRITE arith Reg.REDMULE_ARITH_PTR]

def hwpe_trigger_job : List Event :=
  [HWPE_WRITE 0 Reg.REDMULE_TRIGGER]

def hwpe_soft_clear : List Event :=
  [HWPE_WRITE 0 Reg.REDMULE_SOFT_CLEAR]

def hwpe_cg_enable : List Event := []

def hwpe_cg_disable : List Event := []

/-! ## `redmule_cfg` (`hal_redmule.h`, lines 80-129) -/

/-- The local `m_size_cfg` of `redmule_cfg`: `m_size`, replaced by
`(m_size + 1) >> 1` under `MX_ENABLE`, stored in a `uint16_t`. -/
def m_size_cfg (MX_ENABLE : Bool) (m_size : Nat) : Nat :=
  if MX_ENABLE then uint16_t ((uint16_t m_size + 1) >>> 1) else uint16_t m_size

/-- The local `n_size_cfg` of `redmule_cfg`. -/
def n_size_cfg (MX_ENABLE : Bool) (n_size : Nat) : Nat :=
  if MX_ENABLE then uint16_t ((uint16_t n_size + 1) >>> 1) else uint16_t n_size

/-- The local `mcfg_reg0 = (k_size << 16) | m_size_cfg`. -/
def mcfg_reg0 (MX_ENABLE : Bool) (m_size k_size : Nat) : Nat :=
  uint32_t (uint32_t (uint16_t k_size <<< 16) ||| m_size_cfg MX_ENABLE m_size)

/-- The local `mcfg_reg1 = n_size_cfg`. -/
def mcfg_reg1 (MX_ENABLE : Bool) (n_size : Nat) : Nat :=
  uint32_t (n_size_cfg MX_ENABLE n_size)

/-- The local `arith_reg = (gemm_op << 10) | (gemm_fmt << 7)`, with
`arith_reg |= (1 << 16)` under `MX_ENABLE`. -/
def arith_reg (MX_ENABLE : Bool) (gemm_op gemm_fmt : Nat) : Nat :=
  let arith_reg := uint32_t ((uint8_t gemm_op <<< 10) ||| (uint8_t gemm_fmt <<< 7))
  if MX_ENABLE then arith_reg ||| (1 <<< 16) else arith_reg

/-- The register accesses of one call of `redmule_cfg`, in program order. The
values stored and the registers stored to are those of every compilation; the
order in which the stores reach the device is given by `cfg_device_order`. -/
def redmule_cfg (MX_ENABLE : Bool) (x w z x_exp w_exp : Nat)
    (m_size n_size k_size : Nat) (gemm_op gemm_fmt : Nat) : List Event :=
  redmule_x_add_set x ++
  redmule_w_add_set w ++
  redmule_z_add_set z ++
  (if MX_ENABLE then
    redmule_x_exp_add_set x_exp ++ redmule_w_exp_add_set w_exp
  else []) ++
  redmule_mcfg_set (mcfg_reg0 MX_ENABLE m_size k_size) (mcfg_reg1 MX_ENABLE n_size) ++
  redmule_arith_set (arith_reg MX_ENABLE gemm_op gemm_fmt)

/-- The values stored to register `r`, in order. -/
def writesTo (r : Reg) : List Event → List Nat
  | [] => []
  | Event.write r2 v :: t => if r2 = r then v :: writesTo r t else writesTo r t
  | _ :: t => writesTo r t

/-- The registers stored to, in order. -/
def writtenRegs : List Event → List Reg
  | [] => []
  | Event.write r _ :: t => r :: writtenRegs t
  | _ :: t => writtenRegs t

/-- A register file: the last word stored to each register. -/
abbrev RegFile := Reg → Nat

/-- The register file after the stores of a trace. -/
def applyWrites (rf : RegFile) : List Event → RegFile
  | [] => rf
  | Event.write r v :: t => applyWrites (fun q => if q = r then v else rf q) t
  | _ :: t => applyWrites rf t

/-- The registers `redmule_cfg` can store to. -/
def isCfgReg : Reg → Bool
  | Reg.REDMULE_REG_X_PTR => true
  | Reg.REDMULE_REG_W_PTR => true
  | Reg.REDMULE_REG_Z_PTR => true
  | Reg.REDMULE_REG_X_EXP_PTR => true
  | Reg.REDMULE_REG_W_EXP_PTR => true
  | Reg.REDMULE_MCFG0_PTR => true
  | Reg.REDMULE_MCFG1_PTR => true
  | Reg.REDMULE_ARITH_PTR => true
  | _ => false

/-- A store to a configuration register. -/
def isCfgWrite : Event → Bool
  | Event.write r _ => isCfgReg r
  | _ => false

/-- A store to `REDMULE_TRIGGER`. -/
def isTriggerWrite : Event → Bool
  | Event.write Reg.REDMULE_TRIGGER _ => true
  | _ => false

/-- A load from `REDMULE_ACQUIRE`. -/
def isAcquireRead : Event → Bool
  | Event.read Reg.REDMULE_ACQUIRE _ => true
  | _ => false

/-- A call of a comparison routine. -/
def isCompare : Event → Bool
  | Event.compare _ _ _ => true
  | _ => false

/-! ## `main`, register-offload path (`redmule.c`, lines 31-51 and 112-163) -/

/-- The build-time constants `main` is compiled against. They come from
`tensor_dim.h`, `archi_redmule.h`, the data headers and the compiler command
line, none of which is part of the sources at hand, and are taken as
parameters; the five addresses are those of the operand buffers.
`reload_acquire` is not a constant but a choice the source leaves to the
compiler: `true` when the acquire loop loads `REDMULE_ACQUIRE` again at each
test, as written; `false` when the plain load is done once before the loop and
the loop tests the value it got. -/
structure Build where
  MX_ENABLE : Bool
  M_SIZE : Nat
  N_SIZE : Nat
  K_SIZE : Nat
  SRC_FMT : Int
  FP8 : Int
  FP8ALT : Int
  FP16 : Int
  FP16ALT : Int
  Float8 : Nat
  Float8Alt : Nat
  Float16 : Nat
  Float16Alt : Nat
  gemm_ops : Nat
  x_inp : Nat
  w_inp : Nat
  y_inp : Nat
  x_exp : Nat
  w_exp : Nat
  reload_acquire : Bool

/-- What the surroundings answer during one run: the values returned by
successive loads of `REDMULE_ACQUIRE`, and the count each comparison routine
returns for the buffers of the run (the routines are in `redmule_utils.h`). -/
structure Env where
  acquire : List Int
  compare_int : Compare → Golden → Int → Int

/-- The local `float_fmt` of `main`. -/
def float_fmt (b : Build) : Nat :=
  if b.SRC_FMT = b.FP8 then uint8_t b.Float8
  else if b.SRC_FMT = b.FP8ALT then uint8_t b.Float8Alt
  else if b.SRC_FMT = b.FP16 then uint8_t b.Float16
  else if b.SRC_FMT = b.FP16ALT then uint8_t b.Float16Alt
  else uint8_t b.Float16

/-- The loop `while ((offload_id_tmp = hwpe_acquire_job()) < 0);` run against
the values the device returns to successive loads: the final `offload_id_tmp`
and the loads made. With `reload` the register is loaded at each test; without
it the register is loaded once and a negative value is tested for ever.
`none` when the loop does not end. -/
def acquire_loop (reload : Bool) : List Int → Option (Int × List Event)
  | [] => none
  | v :: rest =>
    if v < 0 then
      if reload then
        match acquire_loop reload rest with
        | none => none
        | some (id, reads) => some (id, HWPE_READ Reg.REDMULE_ACQUIRE v :: reads)
      else none
    else some (v, [HWPE_READ Reg.REDMULE_ACQUIRE v])

/-- The `int` expression `m_size * k_size / d` (`d` is 2 or 4): both operands
are promoted to `int`, the product is a 32-bit `int`, the division truncates
towards zero. -/
def element_count (m_size k_size : Nat) (d : Int) : Int :=
  Int.tdiv (int32_t ((m_size : Int) * (k_size : Int))) d

/-- The result check of `main` (lines 147-155): the comparison called, if any,
and the value of `errors` afterwards (`errors` starts at 0). -/
def check (b : Build) (env : Env) (m_size k_size float_fmt : Nat) : List Event × Int :=
  if b.MX_ENABLE then
    ([Event.compare Compare.redmule8_compare_int Golden.golden_mx (element_count m_size k_size 4)],
      env.compare_int Compare.redmule8_compare_int Golden.golden_mx (element_count m_size k_size 4))
  else if float_fmt = b.Float16 ∨ float_fmt = b.Float16Alt then
    ([Event.compare Compare.redmule16_compare_int Golden.golden (element_count m_size k_size 2)],
      env.compare_int Compare.redmule16_compare_int Golden.golden (element_count m_size k_size 2))
  else if float_fmt = b.Float8 ∨ float_fmt = b.Float8Alt then
    ([Event.compare Compare.redmule8_compare_int Golden.golden (element_count m_size k_size 4)],
      env.compare_int Compare.redmule8_compare_int Golden.golden (element_count m_size k_size 4))
  else ([], 0)

/-- What a finished run of `main` leaves behind: the trace of its events in
program order, the slot identifier it kept, and the value of `errors` it
returns. -/
structure Outcome where
  trace : List Event
  offload_id_tmp : Int
  errors : Int
  deriving DecidableEq, Repr

/-- The call of `redmule_cfg` in `main` (lines 131-133); the pointers are cast
to `unsigned int`, and `x_exp_ptr`, `w_exp_ptr` are `NULL` without `MX_ENABLE`. -/
def main_cfg (b : Build) : List Event :=
  let m_size := uint16_t b.M_SIZE
  let n_size := uint16_t b.N_SIZE
  let k_size := uint16_t b.K_SIZE
  let x_exp_ptr := if b.MX_ENABLE then b.x_exp else 0
  let w_exp_ptr := if b.MX_ENABLE then b.w_exp else 0
  redmule_cfg b.MX_ENABLE (uint32_t b.x_inp) (uint32_t b.w_inp) (uint32_t b.y_inp)
    (uint32_t x_exp_ptr) (uint32_t w_exp_ptr) m_size n_size k_size
    (uint8_t b.gemm_ops) (float_fmt b)

/-- The function `main`: `none` when the acquire loop does not end. The trace
is in program order; `main_device_order` gives the orders in which the
accesses may reach the device. -/
def main (b : Build) (env : Env) : Option Outcome :=
  match acquire_loop b.reload_acquire env.acquire with
  | none => none
  | some (offload_id_tmp, reads) =>
    let result := check b env (uint16_t b.M_SIZE) (uint16_t b.K_SIZE) (float_fmt b)
    some {
      trace :=
        hwpe_cg_enable ++ hwpe_soft_clear ++ reads ++ main_cfg b ++
        hwpe_trigger_job ++ [Event.wfi] ++ hwpe_cg_disable ++
        result.1 ++ [Event.store result.2]
      offload_id_tmp := offload_id_tmp
      errors := result.2 }

/-! ## Ordering of events -/

/-- A store to `REDMULE_SOFT_CLEAR`. -/
def isSoftClearWrite : Event → Bool
  | Event.write Reg.REDMULE_SOFT_CLEAR _ => true
  | _ => false

/-- A store to `REDMULE_ARITH_PTR`. -/
def isArithWrite : Event → Bool
  | Event.write Reg.REDMULE_ARITH_PTR _ => true
  | _ => false

/-- A load from `REDMULE_ACQUIRE` that returned a non-negative value. -/
def isGrantRead : Event → Bool
  | Event.read Reg.REDMULE_ACQUIRE v => decide (0 ≤ v)
  | _ => false

/-- The wait `wfi`. -/
def isWfi : Event → Bool
  | Event.wfi => true
  | _ => false

/-- The trace of `main`, written out, for a run that gets a slot. -/
def main_trace (b : Build) (env : Env) (pre : List Int) (v : Int) : List Event :=
  [Event.write Reg.REDMULE_SOFT_CLEAR 0] ++
  (pre.map (Event.read Reg.REDMULE_ACQUIRE) ++
  ([Event.read Reg.REDMULE_ACQUIRE v] ++
  (main_cfg b ++
  ([Event.write Reg.REDMULE_TRIGGER 0] ++
  ([Event.wfi] ++
  ((check b env (uint16_t b.M_SIZE) (uint16_t b.K_SIZE) (float_fmt b)).1 ++
  [Event.store (check b env (uint16_t b.M_SIZE) (uint16_t b.K_SIZE) (float_fmt b)).2]))))))

/-- A sample build: FP16 operands, micro-scaling off, `M = N = K = 4`. -/
def fp16_build : Build where
  MX_ENABLE := false
  M_SIZE := 4
  N_SIZE := 4
  K_SIZE := 4
  SRC_FMT := 2
  FP8 := 3
  FP8ALT := 5
  FP16 := 2
  FP16ALT := 4
  Float8 := 0
  Float8Alt := 2
  Float16 := 1
  Float16Alt := 3
  gemm_ops := 1
  x_inp := 0x1c010000
  w_inp := 0x1c010100
  y_inp := 0x1c010200
  x_exp := 0
  w_exp := 0
  reload_acquire := true

/-- A sample build: packed FP8 operands, micro-scaling on, `M = 5`, `K = 3`. -/
def mx_build : Build :=
  { fp16_build with
    MX_ENABLE := true
    M_SIZE := 5
    N_SIZE := 4
    K_SIZE := 3
    SRC_FMT := 3
    x_exp := 0x1c010300
    w_exp := 0x1c010400 }

/-- A sample build with the largest 16-bit sizes, `M = N = K = 65535`. -/
def large_build : Build :=
  { fp16_build with
    M_SIZE := 65535
    N_SIZE := 65535
    K_SIZE := 65535 }

/-- A sample run: the device refuses twice, then grants slot 0; the comparison
finds `len % 7` differing words. -/
def sample_env : Env where
  acquire := [-1, -2147483648, 0, 5]
  compare_int := fun _ _ len => len % 7

/-- The outcome of `main` for `mx_build` run against `sample_env`. -/
def mx_run : Outcome where
  trace :=
    [Event.write Reg.REDMULE_SOFT_CLEAR 0,
     Event.read Reg.REDMULE_ACQUIRE (-1),
     Event.read Reg.REDMULE_ACQUIRE (-2147483648),
     Event.read Reg.REDMULE_ACQUIRE 0,
     Event.write Reg.REDMULE_REG_X_PTR 0x1c010000,
     Event.write Reg.REDMULE_REG_W_PTR 0x1c010100,
     Event.write Reg.REDMULE_REG_Z_PTR 0x1c010200,
     Event.write Reg.REDMULE_REG_X_EXP_PTR 0x1c010300,
     Event.write Reg.REDMULE_REG_W_EXP_PTR 0x1c010400,
     Event.write Reg.REDMULE_MCFG0_PTR 0x00030003,
     Event.write Reg.REDMULE_MCFG1_PTR 2,
     Event.write Reg.REDMULE_ARITH_PTR 0x10400,
     Event.write Reg.REDMULE_TRIGGER 0,
     Event.wfi,
     Event.compare Compare.redmule8_compare_int Golden.golden_mx 3,
     Event.store 3]
  offload_id_tmp := 0
  errors := 3

/-! ## The comparison the specification prescribes -/

/-- The comparison routine and word count of section 4.4 of the specification,
in its words: 16-bit-pair granularity over half the `M × K` logical element
count for FP16 and FP16Alt with micro-scaling disabled; 8-bit-quad granularity
over one quarter of it for FP8 and FP8Alt and for any micro-scaling-enabled
mode. -/
def spec_compare (b : Build) : Compare × Int :=
  if b.MX_ENABLE = false ∧ (b.SRC_FMT = b.FP16 ∨ b.SRC_FMT = b.FP16ALT) then
    (Compare.redmule16_compare_int, ((b.M_SIZE * b.K_SIZE / 2 : Nat) : Int))
  else
    (Compare.redmule8_compare_int, ((b.M_SIZE * b.K_SIZE / 4 : Nat) : Int))

/-! ## Helper lemmas -/

theorem ceil_half (m : Nat) : ⌈(m : ℚ) / 2⌉₊ = (m + 1) / 2 := by
  apply le_antisymm
  · rw [Nat.ceil_le, div_le_iff₀ (by norm_num : (0 : ℚ) < 2)]
    have h : m ≤ (m + 1) / 2 * 2 := by omega
    exact_mod_cast h
  · by_contra hlt
    push_neg at hlt
    have h1 : ⌈(m : ℚ) / 2⌉₊ ≤ (m + 1) / 2 - 1 := by omega
    rw [Nat.ceil_le, div_le_iff₀ (by norm_num : (0 : ℚ) < 2)] at h1
    have h2 : m ≤ ((m + 1) / 2 - 1) * 2 := by exact_mod_cast h1
    omega

theorem half_up_fits (m : Nat) (h : m < 65536) :
    uint16_t ((uint16_t m + 1) >>> 1) = (m + 1) / 2 := by
  unfold uint16_t
  rw [Nat.shiftRight_eq_div_pow]
  omega

theorem m_size_cfg_lt (MX_ENABLE : Bool) (m : Nat) : m_size_cfg MX_ENABLE m < 2 ^ 16 := by
  unfold m_size_cfg uint16_t
  split <;> exact Nat.mod_lt _ (by norm_num)

theorem n_size_cfg_lt (MX_ENABLE : Bool) (n : Nat) : n_size_cfg MX_ENABLE n < 2 ^ 16 := by
  unfold n_size_cfg uint16_t
  split <;> exact Nat.mod_lt _ (by norm_num)

theorem mcfg_reg0_eq (MX_ENABLE : Bool) (m k : Nat) (hk : k < 65536) :
    mcfg_reg0 MX_ENABLE m k = k * 2 ^ 16 + m_size_cfg MX_ENABLE m := by
  have hm := m_size_cfg_lt MX_ENABLE m
  have hor : k * 2 ^ 16 ||| m_size_cfg MX_ENABLE m = k * 2 ^ 16 + m_size_cfg MX_ENABLE m := by
    rw [Nat.mul_comm k, Nat.mul_add_lt_is_or hm k]
  unfold mcfg_reg0 uint32_t uint16_t
  rw [Nat.shiftLeft_eq, Nat.mod_eq_of_lt (by omega : k < 2 ^ 16),
    Nat.mod_eq_of_lt (by omega : k * 2 ^ 16 < 2 ^ 32), hor]
  exact Nat.mod_eq_of_lt (by omega)

theorem arith_reg_lt (MX_ENABLE : Bool) (op fmt : Nat) :
    arith_reg MX_ENABLE op fmt < 2 ^ 32 := by
  have h : uint32_t ((uint8_t op <<< 10) ||| (uint8_t fmt <<< 7)) < 2 ^ 32 :=
    Nat.mod_lt _ (by norm_num)
  unfold arith_reg
  cases MX_ENABLE
  · simpa using h
  · have h2 : 1 <<< 16 < 2 ^ 32 := by decide
    simpa using Nat.or_lt_two_pow h h2

/-- The trace of `redmule_cfg`, written out. -/
theorem redmule_cfg_trace (MX_ENABLE : Bool) (x w z x_exp w_exp m n k op fmt : Nat) :
    redmule_cfg MX_ENABLE x w z x_exp w_exp m n k op fmt =
      [Event.write Reg.REDMULE_REG_X_PTR (uint32_t x),
       Event.write Reg.REDMULE_REG_W_PTR (uint32_t w),
       Event.write Reg.REDMULE_REG_Z_PTR (uint32_t z)] ++
      (if MX_ENABLE then
        [Event.write Reg.REDMULE_REG_X_EXP_PTR (uint32_t x_exp),
         Event.write Reg.REDMULE_REG_W_EXP_PTR (uint32_t w_exp)]
      else []) ++
      [Event.write Reg.REDMULE_MCFG0_PTR (uint32_t (mcfg_reg0 MX_ENABLE m k)),
       Event.write Reg.REDMULE_MCFG1_PTR (uint32_t (mcfg_reg1 MX_ENABLE n)),
       Event.write Reg.REDMULE_ARITH_PTR (arith_reg MX_ENABLE op fmt)] := by
  have ha : uint32_t (arith_reg MX_ENABLE op fmt) = arith_reg MX_ENABLE op fmt :=
    Nat.mod_eq_of_lt (arith_reg_lt MX_ENABLE op fmt)
  cases MX_ENABLE <;>
    simp [redmule_cfg, redmule_x_add_set, redmule_w_add_set, redmule_z_add_set,
      redmule_x_exp_add_set, redmule_w_exp_add_set, redmule_mcfg_set, redmule_arith_set,
      HWPE_WRITE, ha]

theorem writesTo_arith (MX_ENABLE : Bool) (x w z x_exp w_exp m n k op fmt : Nat) :
    writesTo Reg.REDMULE_ARITH_PTR (redmule_cfg MX_ENABLE x w z x_exp w_exp m n k op fmt) =
      [arith_reg MX_ENABLE op fmt] := by
  rw [redmule_cfg_trace]
  cases MX_ENABLE <;> simp [writesTo]

/-! ## Size configuration words -/

/-- C1: for 16-bit `m_size` and `n_size`, the sizes `redmule_cfg` puts in the
size registers are `m_size` and `n_size` without `MX_ENABLE`, and
`ceil(m_size/2)` and `ceil(n_size/2)` with it; storing the halved value in a
`uint16_t` loses nothing, also at 65535. -/
theorem size_cfg_ceil_half (m_size n_size : Nat)
    (hm : m_size < 65536) (hn : n_size < 65536) :
    m_size_cfg false m_size = m_size ∧ n_size_cfg false n_size = n_size ∧
    m_size_cfg true m_size = ⌈(m_size : ℚ) / 2⌉₊ ∧
    n_size_cfg true n_size = ⌈(n_size : ℚ) / 2⌉₊ := by
  refine ⟨?_, ?_, ?_, ?_⟩
  · simpa [m_size_cfg, uint16_t] using Nat.mod_eq_of_lt hm
  · simpa [n_size_cfg, uint16_t] using Nat.mod_eq_of_lt hn
  · rw [ceil_half]
    simpa [m_size_cfg] using half_up_fits m_size hm
  · rw [ceil_half]
    simpa [n_size_cfg] using half_up_fits n_size hn

/-- Witness for C1: `m_size = 5` gives 3 and `n_size = 65535` gives 32768 with
`MX_ENABLE`. -/
theorem size_cfg_ceil_half_witness :
    (5 < 65536 ∧ 65535 < 65536) ∧
    (m_size_cfg false 5 = 5 ∧ n_size_cfg false 65535 = 65535 ∧
      m_size_cfg true 5 = ⌈((5 : Nat) : ℚ) / 2⌉₊ ∧
      n_size_cfg true 65535 = ⌈((65535 : Nat) : ℚ) / 2⌉₊) ∧
    m_size_cfg true 5 = 3 ∧ n_size_cfg true 65535 = 32768 :=
  ⟨⟨by decide, by decide⟩, size_cfg_ceil_half 5 65535 (by decide) (by decide),
    by decide, by decide⟩

/-- C2: for 16-bit `k_size`, `m_size` and `n_size`, the one word `redmule_cfg`
stores to MCFG0 is `(k_size << 16) | m_size_eff` and the one word it stores to
MCFG1 is `n_size_eff`, where `m_size_eff` and `n_size_eff` are `m_size` and
`n_size` without `MX_ENABLE` and `ceil(m_size/2)` and `ceil(n_size/2)` with it;
the upper half of MCFG0 decodes to `k_size` and the lower half to `m_size_eff`,
also for `k_size >= 32768`. -/
theorem mcfg_words (MX_ENABLE : Bool) (x w z x_exp w_exp m_size n_size k_size op fmt : Nat)
    (hm : m_size < 65536) (hn : n_size < 65536) (hk : k_size < 65536) :
    ∃ mcfg0 mcfg1 : Nat,
      writesTo Reg.REDMULE_MCFG0_PTR
        (redmule_cfg MX_ENABLE x w z x_exp w_exp m_size n_size k_size op fmt) = [mcfg0] ∧
      writesTo Reg.REDMULE_MCFG1_PTR
        (redmule_cfg MX_ENABLE x w z x_exp w_exp m_size n_size k_size op fmt) = [mcfg1] ∧
      mcfg0 = (k_size <<< 16) |||
        (if MX_ENABLE then ⌈(m_size : ℚ) / 2⌉₊ else m_size) ∧
      mcfg0 = k_size * 2 ^ 16 + (if MX_ENABLE then ⌈(m_size : ℚ) / 2⌉₊ else m_size) ∧
      mcfg0 < 2 ^ 32 ∧
      mcfg0 >>> 16 = k_size ∧
      mcfg0 &&& 0xFFFF = (if MX_ENABLE then ⌈(m_size : ℚ) / 2⌉₊ else m_size) ∧
      mcfg1 = (if MX_ENABLE then ⌈(n_size : ℚ) / 2⌉₊ else n_size) := by
  have hmc := m_size_cfg_lt MX_ENABLE m_size
  have hnc := n_size_cfg_lt MX_ENABLE n_size
  have hme : m_size_cfg MX_ENABLE m_size =
      (if MX_ENABLE then ⌈(m_size : ℚ) / 2⌉₊ else m_size) := by
    cases MX_ENABLE
    · simpa [m_size_cfg, uint16_t] using Nat.mod_eq_of_lt hm
    · rw [if_pos rfl, ceil_half]
      simpa [m_size_cfg] using half_up_fits m_size hm
  have hne : n_size_cfg MX_ENABLE n_size =
      (if MX_ENABLE then ⌈(n_size : ℚ) / 2⌉₊ else n_size) := by
    cases MX_ENABLE
    · simpa [n_size_cfg, uint16_t] using Nat.mod_eq_of_lt hn
    · rw [if_pos rfl, ceil_half]
      simpa [n_size_cfg] using half_up_fits n_size hn
  have h0 := mcfg_reg0_eq MX_ENABLE m_size k_size hk
  have h0u : uint32_t (mcfg_reg0 MX_ENABLE m_size k_size) =
      k_size * 2 ^ 16 + m_size_cfg MX_ENABLE m_size := by
    rw [h0]; exact Nat.mod_eq_of_lt (by omega)
  have h1u : uint32_t (mcfg_reg1 MX_ENABLE n_size) = n_size_cfg MX_ENABLE n_size := by
    unfold mcfg_reg1 uint32_t
    rw [Nat.mod_eq_of_lt (by omega : n_size_cfg MX_ENABLE n_size < 2 ^ 32)]
    exact Nat.mod_eq_of_lt (by omega)
  refine ⟨k_size * 2 ^ 16 + m_size_cfg MX_ENABLE m_size, n_size_cfg MX_ENABLE n_size,
    ?_, ?_, ?_, ?_, ?_, ?_, ?_, hne⟩
  · rw [redmule_cfg_trace, h0u]
    cases MX_ENABLE <;> simp [writesTo]
  · rw [redmule_cfg_trace, h1u]
    cases MX_ENABLE <;> simp [writesTo]
  · rw [← hme, Nat.shiftLeft_eq, Nat.mul_comm k_size, Nat.mul_add_lt_is_or hmc k_size]
  · rw [← hme]
  · omega
  · rw [Nat.shiftRight_eq_div_pow]
    omega
  · rw [← hme]
    have h : (0xFFFF : Nat) = 2 ^ 16 - 1 := by norm_num
    rw [h, Nat.and_pow_two_sub_one_eq_mod]
    omega

/-- Witness for C2: `m = 5`, `n = 3`, `k = 3` with `MX_ENABLE` gives MCFG0 =
0x00030003 and MCFG1 = 2 (both sizes halved, rounding up); `m = n = k = 4`
without `MX_ENABLE` gives MCFG0 = 0x00040004 and MCFG1 = 4. -/
theorem mcfg_words_witness :
    (5 < 65536 ∧ 3 < 65536 ∧ 3 < 65536) ∧
    (∃ mcfg0 mcfg1 : Nat,
      writesTo Reg.REDMULE_MCFG0_PTR (redmule_cfg true 0 0 0 0 0 5 3 3 1 1) = [mcfg0] ∧
      writesTo Reg.REDMULE_MCFG1_PTR (redmule_cfg true 0 0 0 0 0 5 3 3 1 1) = [mcfg1] ∧
      mcfg0 = (3 <<< 16) ||| (if true then ⌈((5 : Nat) : ℚ) / 2⌉₊ else 5) ∧
      mcfg0 = 3 * 2 ^ 16 + (if true then ⌈((5 : Nat) : ℚ) / 2⌉₊ else 5) ∧
      mcfg0 < 2 ^ 32 ∧
      mcfg0 >>> 16 = 3 ∧
      mcfg0 &&& 0xFFFF = (if true then ⌈((5 : Nat) : ℚ) / 2⌉₊ else 5) ∧
      mcfg1 = (if true then ⌈((3 : Nat) : ℚ) / 2⌉₊ else 3)) ∧
    writesTo Reg.REDMULE_MCFG0_PTR (redmule_cfg true 0 0 0 0 0 5 3 3 1 1) = [0x00030003] ∧
    writesTo Reg.REDMULE_MCFG1_PTR (redmule_cfg true 0 0 0 0 0 5 3 3 1 1) = [2] ∧
    writesTo Reg.REDMULE_MCFG0_PTR (redmule_cfg false 0 0 0 0 0 4 4 4 1 1) = [0x00040004] ∧
    writesTo Reg.REDMULE_MCFG1_PTR (redmule_cfg false 0 0 0 0 0 4 4 4 1 1) = [4] :=
  ⟨⟨by decide, by decide, by decide⟩,
    mcfg_words true 0 0 0 0 0 5 3 3 1 1 (by decide) (by decide) (by decide),
    by decide, by decide, by decide, by decide⟩

/-! ## Arithmetic-mode word -/

theorem arith_reg_cases (MX_ENABLE : Bool) (op fmt : Nat) (hop : op < 8) (hfmt : fmt < 8) :
    arith_reg MX_ENABLE op fmt = op * 1024 + fmt * 128 + MX_ENABLE.toNat * 65536 ∧
    arith_reg MX_ENABLE op fmt =
      (op <<< 10) ||| (fmt <<< 7) ||| (MX_ENABLE.toNat <<< 16) ∧
    (arith_reg MX_ENABLE op fmt >>> 7) &&& 7 = fmt ∧
    (arith_reg MX_ENABLE op fmt >>> 10) &&& 7 = op ∧
    arith_reg MX_ENABLE op fmt &&& 0x11F80 = arith_reg MX_ENABLE op fmt := by
  interval_cases op <;> interval_cases fmt <;> cases MX_ENABLE <;> decide

/-- C3: for 3-bit `gemm_op` and `gemm_fmt` and any other arguments, the ARITH
word `redmule_cfg` stores has `gemm_fmt` in bits [9:7] and `gemm_op` in bits
[12:10]: decoding the two fields gives back the pair that was encoded. -/
theorem arith_fields_roundtrip (MX_ENABLE : Bool)
    (x w z x_exp w_exp m_size n_size k_size op fmt : Nat)
    (hop : op < 8) (hfmt : fmt < 8) :
    ∃ arith : Nat,
      writesTo Reg.REDMULE_ARITH_PTR
        (redmule_cfg MX_ENABLE x w z x_exp w_exp m_size n_size k_size op fmt) = [arith] ∧
      (arith >>> 7) &&& 7 = fmt ∧ (arith >>> 10) &&& 7 = op := by
  obtain ⟨-, -, h7, h10, -⟩ := arith_reg_cases MX_ENABLE op fmt hop hfmt
  exact ⟨arith_reg MX_ENABLE op fmt, writesTo_arith _ _ _ _ _ _ _ _ _ _ _, h7, h10⟩

/-- Witness for C3: `gemm_op = 5`, `gemm_fmt = 3` with `MX_ENABLE`. -/
theorem arith_fields_roundtrip_witness :
    (5 < 8 ∧ 3 < 8) ∧
    ∃ arith : Nat,
      writesTo Reg.REDMULE_ARITH_PTR
        (redmule_cfg true 0x1c010000 0x1c020000 0x1c030000 0x1c040000 0x1c050000 5 7 3 5 3)
        = [arith] ∧
      (arith >>> 7) &&& 7 = 3 ∧ (arith >>> 10) &&& 7 = 5 :=
  ⟨⟨by decide, by decide⟩,
    arith_fields_roundtrip true 0x1c010000 0x1c020000 0x1c030000 0x1c040000 0x1c050000
      5 7 3 5 3 (by decide) (by decide)⟩

theorem testBit_16_arith (op fmt : Nat) (hfmt : fmt < 256) :
    (uint32_t ((op <<< 10) ||| (fmt <<< 7))).testBit 16 = op.testBit 6 := by
  unfold uint32_t
  rw [Nat.testBit_mod_two_pow, Nat.testBit_or, Nat.testBit_shiftLeft, Nat.testBit_shiftLeft]
  have h9 : fmt.testBit 9 = false := Nat.testBit_lt_two_pow (by omega)
  simp [h9]

theorem bit_eq_one_iff_testBit (a i : Nat) : (a >>> i) &&& 1 = 1 ↔ a.testBit i = true := by
  rw [Nat.and_one_is_mod, Nat.testBit_to_div_mod, Nat.shiftRight_eq_div_pow]
  simp

theorem testBit_16_arith_reg (MX_ENABLE : Bool) (op fmt : Nat) (hop : op < 256) (hfmt : fmt < 256) :
    (arith_reg MX_ENABLE op fmt).testBit 16 = (MX_ENABLE || op.testBit 6) := by
  have h := testBit_16_arith op fmt hfmt
  have e1 : uint8_t op = op := Nat.mod_eq_of_lt hop
  have e2 : uint8_t fmt = fmt := Nat.mod_eq_of_lt hfmt
  have h16 : (1 <<< 16 : Nat).testBit 16 = true := by decide
  unfold arith_reg
  rw [e1, e2]
  cases MX_ENABLE
  · simpa using h
  · simp only [if_true, Nat.testBit_or, h16]
    simp

/-- C4, as stated, fails: with `MX_ENABLE` off and `gemm_op = 64` (an 8-bit
value), `gemm_op << 10` lands on bit 16 and the ARITH word stored has bit 16
set. -/
theorem arith_bit16_counterexample :
    writesTo Reg.REDMULE_ARITH_PTR (redmule_cfg false 0 0 0 0 0 4 4 4 64 1) = [65664] ∧
    (65664 >>> 16) &&& 1 = 1 ∧
    ¬ ((65664 >>> 16) &&& 1 = 1 ↔ false = true) := by
  decide

/-- C4, amended: for 8-bit `gemm_op` and `gemm_fmt` with bit 6 of `gemm_op`
clear (every operation code below 64, so every 3-bit code), bit 16 of the ARITH
word `redmule_cfg` stores is 1 if and only if `MX_ENABLE` is on. -/
theorem arith_bit16_iff_mx (MX_ENABLE : Bool)
    (x w z x_exp w_exp m_size n_size k_size op fmt : Nat)
    (hop : op < 256) (hfmt : fmt < 256) (h6 : op % 128 < 64) :
    ∃ arith : Nat,
      writesTo Reg.REDMULE_ARITH_PTR
        (redmule_cfg MX_ENABLE x w z x_exp w_exp m_size n_size k_size op fmt) = [arith] ∧
      ((arith >>> 16) &&& 1 = 1 ↔ MX_ENABLE = true) := by
  refine ⟨arith_reg MX_ENABLE op fmt, writesTo_arith _ _ _ _ _ _ _ _ _ _ _, ?_⟩
  have hb : op.testBit 6 = false := by
    rw [Nat.testBit_to_div_mod]
    have h0 : op / 2 ^ 6 % 2 = 0 := by omega
    rw [h0]
    decide
  rw [bit_eq_one_iff_testBit, testBit_16_arith_reg MX_ENABLE op fmt hop hfmt, hb]
  simp

/-- Witness for C4, amended: `gemm_op = 63`, `gemm_fmt = 255` without `MX_ENABLE`. -/
theorem arith_bit16_iff_mx_witness :
    (63 < 256 ∧ 255 < 256 ∧ 63 % 128 < 64) ∧
    ∃ arith : Nat,
      writesTo Reg.REDMULE_ARITH_PTR
        (redmule_cfg false 1 2 3 4 5 65535 65535 65535 63 255) = [arith] ∧
      ((arith >>> 16) &&& 1 = 1 ↔ false = true) :=
  ⟨⟨by decide, by decide, by decide⟩,
    arith_bit16_iff_mx false 1 2 3 4 5 65535 65535 65535 63 255
      (by decide) (by decide) (by decide)⟩

/-- C5: for 3-bit `gemm_op` and `gemm_fmt`, the ARITH word `redmule_cfg` stores
is exactly `(op << 10) | (fmt << 7) | (mx << 16)`, where `mx` is 1 with
`MX_ENABLE` and 0 without: every bit outside [12:10], [9:7] and [16] is zero. -/
theorem arith_reserved_bits_zero (MX_ENABLE : Bool)
    (x w z x_exp w_exp m_size n_size k_size op fmt : Nat)
    (hop : op < 8) (hfmt : fmt < 8) :
    ∃ arith : Nat,
      writesTo Reg.REDMULE_ARITH_PTR
        (redmule_cfg MX_ENABLE x w z x_exp w_exp m_size n_size k_size op fmt) = [arith] ∧
      arith = (op <<< 10) ||| (fmt <<< 7) ||| (MX_ENABLE.toNat <<< 16) ∧
      arith = op * 2 ^ 10 + fmt * 2 ^ 7 + MX_ENABLE.toNat * 2 ^ 16 ∧
      ∀ i : Nat, ¬ (7 ≤ i ∧ i ≤ 12) → i ≠ 16 → arith.testBit i = false := by
  obtain ⟨hsum, hor, -, -, hmask⟩ := arith_reg_cases MX_ENABLE op fmt hop hfmt
  refine ⟨arith_reg MX_ENABLE op fmt, writesTo_arith _ _ _ _ _ _ _ _ _ _ _, hor, ?_, ?_⟩
  · rw [hsum]
    norm_num
  · intro i hi h16
    rw [← hmask, Nat.testBit_and]
    have hm : (0x11F80 : Nat).testBit i = false := by
      by_cases hlt : i < 17
      · interval_cases i <;> first | decide | omega
      · exact Nat.testBit_lt_two_pow
          (lt_of_lt_of_le (by norm_num) (Nat.pow_le_pow_right (by norm_num) (by omega : 17 ≤ i)))
    simp [hm]

/-- Witness for C5: `gemm_op = 1`, `gemm_fmt = 1` with `MX_ENABLE`. -/
theorem arith_reserved_bits_zero_witness :
    (1 < 8 ∧ 1 < 8) ∧
    ∃ arith : Nat,
      writesTo Reg.REDMULE_ARITH_PTR
        (redmule_cfg true 1 2 3 4 5 5 4 3 1 1) = [arith] ∧
      arith = (1 <<< 10) ||| (1 <<< 7) ||| (true.toNat <<< 16) ∧
      arith = 1 * 2 ^ 10 + 1 * 2 ^ 7 + true.toNat * 2 ^ 16 ∧
      ∀ i : Nat, ¬ (7 ≤ i ∧ i ≤ 12) → i ≠ 16 → arith.testBit i = false :=
  ⟨⟨by decide, by decide⟩,
    arith_reserved_bits_zero true 1 2 3 4 5 5 4 3 1 1 (by decide) (by decide)⟩

/-! ## Register writes of `redmule_cfg` -/

theorem mcfg_reg0_u32 (MX_ENABLE : Bool) (m k : Nat) :
    uint32_t (mcfg_reg0 MX_ENABLE m k) = mcfg_reg0 MX_ENABLE m k := by
  unfold mcfg_reg0 uint32_t
  exact Nat.mod_mod _ _

theorem mcfg_reg1_u32 (MX_ENABLE : Bool) (n : Nat) :
    uint32_t (mcfg_reg1 MX_ENABLE n) = mcfg_reg1 MX_ENABLE n := by
  unfold mcfg_reg1 uint32_t
  exact Nat.mod_mod _ _

/-- C6: without `MX_ENABLE`, whatever the arguments, one call of `redmule_cfg`
stores nothing to X_EXP_PTR and nothing to W_EXP_PTR; `x_exp` and `w_exp` have
no effect on the trace, and both registers keep the content they had. -/
theorem no_exp_write_when_mx_off (x w z x_exp w_exp m_size n_size k_size op fmt : Nat)
    (rf : RegFile) :
    writesTo Reg.REDMULE_REG_X_EXP_PTR
      (redmule_cfg false x w z x_exp w_exp m_size n_size k_size op fmt) = [] ∧
    writesTo Reg.REDMULE_REG_W_EXP_PTR
      (redmule_cfg false x w z x_exp w_exp m_size n_size k_size op fmt) = [] ∧
    Reg.REDMULE_REG_X_EXP_PTR ∉
      writtenRegs (redmule_cfg false x w z x_exp w_exp m_size n_size k_size op fmt) ∧
    Reg.REDMULE_REG_W_EXP_PTR ∉
      writtenRegs (redmule_cfg false x w z x_exp w_exp m_size n_size k_size op fmt) ∧
    redmule_cfg false x w z x_exp w_exp m_size n_size k_size op fmt =
      redmule_cfg false x w z 0 0 m_size n_size k_size op fmt ∧
    applyWrites rf (redmule_cfg false x w z x_exp w_exp m_size n_size k_size op fmt)
      Reg.REDMULE_REG_X_EXP_PTR = rf Reg.REDMULE_REG_X_EXP_PTR ∧
    applyWrites rf (redmule_cfg false x w z x_exp w_exp m_size n_size k_size op fmt)
      Reg.REDMULE_REG_W_EXP_PTR = rf Reg.REDMULE_REG_W_EXP_PTR := by
  refine ⟨?_, ?_, ?_, ?_, ?_, ?_, ?_⟩ <;>
    simp [redmule_cfg_trace, writesTo, writtenRegs, applyWrites]

theorem acquire_loop_some (reload : Bool) (l : List Int) (id : Int) (reads : List Event)
    (h : acquire_loop reload l = some (id, reads)) :
    ∃ pre post, l = pre ++ id :: post ∧ (∀ u ∈ pre, u < 0) ∧ 0 ≤ id ∧
      (reload = true ∨ pre = []) ∧
      reads = pre.map (Event.read Reg.REDMULE_ACQUIRE) ++
        [Event.read Reg.REDMULE_ACQUIRE id] := by
  induction l generalizing id reads with
  | nil => exact Option.noConfusion h
  | cons a l ih =>
    by_cases ha : a < 0
    · cases hr : reload with
      | false =>
        rw [hr] at h
        simp [acquire_loop, ha] at h
      | true =>
        rw [hr] at h ih
        cases hrec : acquire_loop true l with
        | none => simp [acquire_loop, ha, hrec] at h
        | some r =>
          obtain ⟨id2, reads2⟩ := r
          simp [acquire_loop, ha, hrec, HWPE_READ] at h
          obtain ⟨rfl, rfl⟩ := h
          obtain ⟨pre, post, rfl, hpre, hv, -, rfl⟩ := ih id2 reads2 hrec
          refine ⟨a :: pre, post, rfl, ?_, hv, Or.inl rfl, rfl⟩
          intro u hu
          rcases List.mem_cons.mp hu with rfl | hu
          · exact ha
          · exact hpre u hu
    · simp [acquire_loop, ha, HWPE_READ] at h
      obtain ⟨rfl, rfl⟩ := h
      exact ⟨[], l, rfl, by simp, not_lt.mp ha, Or.inr rfl, rfl⟩

theorem main_of_acquire (b : Build) (env : Env) (pre : List Int) (v : Int)
    (hacq : acquire_loop b.reload_acquire env.acquire =
      some (v, pre.map (Event.read Reg.REDMULE_ACQUIRE) ++
        [Event.read Reg.REDMULE_ACQUIRE v])) :
    main b env = some {
      trace := main_trace b env pre v
      offload_id_tmp := v
      errors := (check b env (uint16_t b.M_SIZE) (uint16_t b.K_SIZE) (float_fmt b)).2 } := by
  unfold main
  rw [hacq]
  simp [main_trace, hwpe_cg_enable, hwpe_cg_disable, hwpe_soft_clear, hwpe_trigger_job,
    HWPE_WRITE, uint32_t]

theorem main_some (b : Build) (env : Env) (out : Outcome) (h : main b env = some out) :
    ∃ pre v post, env.acquire = pre ++ v :: post ∧ (∀ u ∈ pre, u < 0) ∧ 0 ≤ v ∧
      out = {
        trace := main_trace b env pre v
        offload_id_tmp := v
        errors := (check b env (uint16_t b.M_SIZE) (uint16_t b.K_SIZE) (float_fmt b)).2 } := by
  cases hacq : acquire_loop b.reload_acquire env.acquire with
  | none =>
    unfold main at h
    rw [hacq] at h
    exact Option.noConfusion h
  | some r =>
    obtain ⟨id, reads⟩ := r
    obtain ⟨pre, post, hl, hpre, hv, -, rfl⟩ := acquire_loop_some _ _ _ _ hacq
    have h2 := main_of_acquire b env pre id hacq
    rw [h] at h2
    exact ⟨pre, id, post, hl, hpre, hv, Option.some.inj h2⟩

/-! ## Kinds of events in the segments of the trace -/

theorem filter_of_all_true (p : Event → Bool) (l : List Event)
    (h : ∀ e ∈ l, p e = true) : l.filter p = l :=
  List.filter_eq_self.mpr h

theorem filter_of_all_false (p : Event → Bool) (l : List Event)
    (h : ∀ e ∈ l, p e = false) : l.filter p = [] :=
  List.filter_eq_nil_iff.mpr (fun e he => by simp [h e he])

theorem reads_kind (pre : List Int) (hpre : ∀ u ∈ pre, u < 0) (e : Event)
    (he : e ∈ pre.map (Event.read Reg.REDMULE_ACQUIRE)) :
    isSoftClearWrite e = false ∧ isAcquireRead e = true ∧ isGrantRead e = false ∧
    isCfgWrite e = false ∧ isArithWrite e = false ∧ isTriggerWrite e = false ∧
    isWfi e = false ∧ isCompare e = false := by
  obtain ⟨u, hu, rfl⟩ := List.mem_map.mp he
  have := hpre u hu
  simp [isSoftClearWrite, isAcquireRead, isGrantRead, isCfgWrite, isArithWrite,
    isTriggerWrite, isWfi, isCompare, this]

theorem main_cfg_explicit (b : Build) :
    main_cfg b =
      [Event.write Reg.REDMULE_REG_X_PTR (uint32_t b.x_inp),
       Event.write Reg.REDMULE_REG_W_PTR (uint32_t b.w_inp),
       Event.write Reg.REDMULE_REG_Z_PTR (uint32_t b.y_inp)] ++
      (if b.MX_ENABLE then
        [Event.write Reg.REDMULE_REG_X_EXP_PTR (uint32_t b.x_exp),
         Event.write Reg.REDMULE_REG_W_EXP_PTR (uint32_t b.w_exp)]
      else []) ++
      [Event.write Reg.REDMULE_MCFG0_PTR
         (mcfg_reg0 b.MX_ENABLE (uint16_t b.M_SIZE) (uint16_t b.K_SIZE)),
       Event.write Reg.REDMULE_MCFG1_PTR (mcfg_reg1 b.MX_ENABLE (uint16_t b.N_SIZE)),
       Event.write Reg.REDMULE_ARITH_PTR
         (arith_reg b.MX_ENABLE (uint8_t b.gemm_ops) (float_fmt b))] := by
  unfold main_cfg
  rw [redmule_cfg_trace, mcfg_reg0_u32, mcfg_reg1_u32]
  cases b.MX_ENABLE <;> simp [uint32_t]

theorem cfg_kind (b : Build) (e : Event) (he : e ∈ main_cfg b) :
    isSoftClearWrite e = false ∧ isAcquireRead e = false ∧ isGrantRead e = false ∧
    isCfgWrite e = true ∧ isTriggerWrite e = false ∧
    isWfi e = false ∧ isCompare e = false := by
  have hall : ∀ e ∈ main_cfg b,
      isSoftClearWrite e = false ∧ isAcquireRead e = false ∧ isGrantRead e = false ∧
      isCfgWrite e = true ∧ isTriggerWrite e = false ∧
      isWfi e = false ∧ isCompare e = false := by
    rw [main_cfg_explicit]
    cases b.MX_ENABLE <;>
      simp [isSoftClearWrite, isAcquireRead, isGrantRead, isCfgWrite, isCfgReg,
        isTriggerWrite, isWfi, isCompare]
  exact hall e he

theorem check_kind (b : Build) (env : Env) (m k f : Nat) (e : Event)
    (he : e ∈ (check b env m k f).1) :
    isSoftClearWrite e = false ∧ isAcquireRead e = false ∧ isGrantRead e = false ∧
    isCfgWrite e = false ∧ isArithWrite e = false ∧ isTriggerWrite e = false ∧
    isWfi e = false ∧ isCompare e = true := by
  unfold check at he
  split_ifs at he <;> simp at he <;> subst he <;> exact ⟨rfl, rfl, rfl, rfl, rfl, rfl, rfl, rfl⟩

theorem filter_main_trace (p : Event → Bool) (b : Build) (env : Env)
    (pre : List Int) (v : Int) :
    (main_trace b env pre v).filter p =
      [Event.write Reg.REDMULE_SOFT_CLEAR 0].filter p ++
      ((pre.map (Event.read Reg.REDMULE_ACQUIRE)).filter p ++
      ([Event.read Reg.REDMULE_ACQUIRE v].filter p ++
      ((main_cfg b).filter p ++
      ([Event.write Reg.REDMULE_TRIGGER 0].filter p ++
      ([Event.wfi].filter p ++
      ((check b env (uint16_t b.M_SIZE) (uint16_t b.K_SIZE) (float_fmt b)).1.filter p ++
      [Event.store
        (check b env (uint16_t b.M_SIZE) (uint16_t b.K_SIZE) (float_fmt b)).2].filter p)))))) := by
  simp only [main_trace, List.filter_append]

theorem element_count_of_lt (m k d : Nat) (h : m * k < 2 ^ 31) :
    element_count m k (d : Int) = ((m * k / d : Nat) : Int) := by
  have hc : ((m : Int) * (k : Int)) = ((m * k : Nat) : Int) := by push_cast; rfl
  have hw : int32_t ((m * k : Nat) : Int) = ((m * k : Nat) : Int) := by
    unfold int32_t
    omega
  unfold element_count
  rw [hc, hw, Int.ofNat_tdiv]

theorem check_mx (b : Build) (env : Env) (m k f : Nat) (h : b.MX_ENABLE = true) :
    check b env m k f =
      ([Event.compare Compare.redmule8_compare_int Golden.golden_mx (element_count m k 4)],
        env.compare_int Compare.redmule8_compare_int Golden.golden_mx
          (element_count m k 4)) := by
  simp [check, h]

theorem check_16 (b : Build) (env : Env) (m k f : Nat) (h : b.MX_ENABLE = false)
    (hf : f = b.Float16 ∨ f = b.Float16Alt) :
    check b env m k f =
      ([Event.compare Compare.redmule16_compare_int Golden.golden (element_count m k 2)],
        env.compare_int Compare.redmule16_compare_int Golden.golden
          (element_count m k 2)) := by
  unfold check
  rw [if_neg (by simp [h]), if_pos hf]

theorem check_8 (b : Build) (env : Env) (m k f : Nat) (h : b.MX_ENABLE = false)
    (hn : ¬ (f = b.Float16 ∨ f = b.Float16Alt)) (hf : f = b.Float8 ∨ f = b.Float8Alt) :
    check b env m k f =
      ([Event.compare Compare.redmule8_compare_int Golden.golden (element_count m k 4)],
        env.compare_int Compare.redmule8_compare_int Golden.golden
          (element_count m k 4)) := by
  unfold check
  rw [if_neg (by simp [h]), if_neg hn, if_pos hf]

theorem check_eq_spec (b : Build) (env : Env)
    (hM : b.M_SIZE < 65536) (hK : b.K_SIZE < 65536)
    (hprod : b.M_SIZE * b.K_SIZE < 2 ^ 31)
    (hsrc : b.MX_ENABLE = true ∨ b.SRC_FMT ∈ [b.FP8, b.FP8ALT, b.FP16, b.FP16ALT])
    (hFP : [b.FP8, b.FP8ALT, b.FP16, b.FP16ALT].Nodup)
    (hFloat : [b.Float8, b.Float8Alt, b.Float16, b.Float16Alt].Nodup)
    (h8 : ∀ c ∈ [b.Float8, b.Float8Alt, b.Float16, b.Float16Alt], c < 256) :
    ∃ g : Golden,
      check b env (uint16_t b.M_SIZE) (uint16_t b.K_SIZE) (float_fmt b) =
        ([Event.compare (spec_compare b).1 g (spec_compare b).2],
          env.compare_int (spec_compare b).1 g (spec_compare b).2) := by
  have eM : uint16_t b.M_SIZE = b.M_SIZE := Nat.mod_eq_of_lt hM
  have eK : uint16_t b.K_SIZE = b.K_SIZE := Nat.mod_eq_of_lt hK
  have c2 : element_count b.M_SIZE b.K_SIZE 2 = ((b.M_SIZE * b.K_SIZE / 2 : Nat) : Int) :=
    element_count_of_lt b.M_SIZE b.K_SIZE 2 hprod
  have c4 : element_count b.M_SIZE b.K_SIZE 4 = ((b.M_SIZE * b.K_SIZE / 4 : Nat) : Int) :=
    element_count_of_lt b.M_SIZE b.K_SIZE 4 hprod
  have e8 : uint8_t b.Float8 = b.Float8 := Nat.mod_eq_of_lt (h8 _ (by simp))
  have e8a : uint8_t b.Float8Alt = b.Float8Alt := Nat.mod_eq_of_lt (h8 _ (by simp))
  have e16 : uint8_t b.Float16 = b.Float16 := Nat.mod_eq_of_lt (h8 _ (by simp))
  have e16a : uint8_t b.Float16Alt = b.Float16Alt := Nat.mod_eq_of_lt (h8 _ (by simp))
  simp only [List.nodup_cons, List.mem_cons, List.mem_singleton, List.not_mem_nil,
    or_false, not_or, List.nodup_nil, and_true, not_false_eq_true] at hFP hFloat
  obtain ⟨⟨p1, p2, p3⟩, ⟨p4, p5⟩, p6⟩ := hFP
  obtain ⟨⟨q1, q2, q3⟩, ⟨q4, q5⟩, q6⟩ := hFloat
  have spec16 : b.MX_ENABLE = false → (b.SRC_FMT = b.FP16 ∨ b.SRC_FMT = b.FP16ALT) →
      spec_compare b =
        (Compare.redmule16_compare_int, ((b.M_SIZE * b.K_SIZE / 2 : Nat) : Int)) := by
    intro h1 h2
    unfold spec_compare
    rw [if_pos ⟨h1, h2⟩]
  have spec8 : ¬ (b.MX_ENABLE = false ∧ (b.SRC_FMT = b.FP16 ∨ b.SRC_FMT = b.FP16ALT)) →
      spec_compare b =
        (Compare.redmule8_compare_int, ((b.M_SIZE * b.K_SIZE / 4 : Nat) : Int)) := by
    intro h1
    unfold spec_compare
    rw [if_neg h1]
  rw [eM, eK]
  cases hmx : b.MX_ENABLE
  · -- micro-scaling disabled
    have hsrc2 : b.SRC_FMT ∈ [b.FP8, b.FP8ALT, b.FP16, b.FP16ALT] := by
      rcases hsrc with h | h
      · rw [hmx] at h; exact Bool.noConfusion h
      · exact h
    simp only [List.mem_cons, List.mem_singleton, List.not_mem_nil, or_false] at hsrc2
    refine ⟨Golden.golden, ?_⟩
    rcases hsrc2 with h | h | h | h
    · have hf : float_fmt b = b.Float8 := by
        unfold float_fmt
        rw [if_pos h, e8]
      have hs : ¬ (b.MX_ENABLE = false ∧ (b.SRC_FMT = b.FP16 ∨ b.SRC_FMT = b.FP16ALT)) := by
        rw [h]; exact fun hh => hh.2.elim p2 p3
      rw [spec8 hs, hf, check_8 b env _ _ _ hmx (fun hh => hh.elim q2 q3) (Or.inl rfl), c4]
    · have hf : float_fmt b = b.Float8Alt := by
        unfold float_fmt
        rw [if_neg (by rw [h]; exact Ne.symm p1), if_pos h, e8a]
      have hs : ¬ (b.MX_ENABLE = false ∧ (b.SRC_FMT = b.FP16 ∨ b.SRC_FMT = b.FP16ALT)) := by
        rw [h]; exact fun hh => hh.2.elim p4 p5
      rw [spec8 hs, hf, check_8 b env _ _ _ hmx (fun hh => hh.elim q4 q5) (Or.inr rfl), c4]
    · have hf : float_fmt b = b.Float16 := by
        unfold float_fmt
        rw [if_neg (by rw [h]; exact Ne.symm p2), if_neg (by rw [h]; exact Ne.symm p4),
          if_pos h, e16]
      rw [spec16 hmx (Or.inl h), hf, check_16 b env _ _ _ hmx (Or.inl rfl), c2]
    · have hf : float_fmt b = b.Float16Alt := by
        unfold float_fmt
        rw [if_neg (by rw [h]; exact Ne.symm p3), if_neg (by rw [h]; exact Ne.symm p5),
          if_neg (by rw [h]; exact Ne.symm p6), if_pos h, e16a]
      rw [spec16 hmx (Or.inr h), hf, check_16 b env _ _ _ hmx (Or.inr rfl), c2]
  · -- micro-scaling enabled
    have hs : ¬ (b.MX_ENABLE = false ∧ (b.SRC_FMT = b.FP16 ∨ b.SRC_FMT = b.FP16ALT)) := by
      rw [hmx]; simp
    exact ⟨Golden.golden_mx, by rw [spec8 hs, check_mx b env _ _ _ hmx, c4]⟩

theorem filter_compare_main_trace (b : Build) (env : Env) (pre : List Int) (v : Int)
    (hpre : ∀ u ∈ pre, u < 0) :
    (main_trace b env pre v).filter isCompare =
      (check b env (uint16_t b.M_SIZE) (uint16_t b.K_SIZE) (float_fmt b)).1 := by
  rw [filter_main_trace,
    filter_of_all_false _ _ (fun e he => (reads_kind pre hpre e he).2.2.2.2.2.2.2),
    filter_of_all_false _ _ (fun e he => (cfg_kind b e he).2.2.2.2.2.2),
    filter_of_all_true _ (check _ _ _ _ _).1
      (fun e he => (check_kind _ _ _ _ _ e he).2.2.2.2.2.2.2)]
  simp [isCompare]

theorem getLast_main_trace (b : Build) (env : Env) (pre : List Int) (v : Int) :
    (main_trace b env pre v).getLast? =
      some (Event.store
        (check b env (uint16_t b.M_SIZE) (uint16_t b.K_SIZE) (float_fmt b)).2) := by
  have hcut : main_trace b env pre v =
      ([Event.write Reg.REDMULE_SOFT_CLEAR 0] ++
        (pre.map (Event.read Reg.REDMULE_ACQUIRE) ++
        ([Event.read Reg.REDMULE_ACQUIRE v] ++
        (main_cfg b ++ ([Event.write Reg.REDMULE_TRIGGER 0] ++ ([Event.wfi] ++
        (check b env (uint16_t b.M_SIZE) (uint16_t b.K_SIZE) (float_fmt b)).1)))))) ++
      [Event.store (check b env (uint16_t b.M_SIZE) (uint16_t b.K_SIZE) (float_fmt b)).2] := by
    simp [main_trace]
  rw [hcut]
  exact List.getLast?_concat _

/-- C10, as stated, fails: with `M_SIZE = K_SIZE = 65535` (FP16, micro-scaling
off) the product `m_size * k_size` does not fit a 32-bit `int`, and the count
handed to `redmule16_compare_int` is -65535, not 65535 * 65535 / 2. -/
theorem compare_count_counterexample :
    large_build.M_SIZE < 65536 ∧ large_build.K_SIZE < 65536 ∧
    (main large_build sample_env).map (fun o => o.trace.filter isCompare) =
      some [Event.compare Compare.redmule16_compare_int Golden.golden (-65535)] ∧
    spec_compare large_build = (Compare.redmule16_compare_int, 2147418112) ∧
    (2147418112 : Int) = ((65535 * 65535 / 2 : Nat) : Int) := by
  decide

/-- C10, amended: for 16-bit `m_size` and `k_size` whose product is below 2^31,
a run of `main` that completes calls exactly one comparison: the 16-bit-pair
routine over `m_size * k_size / 2` words for FP16 and FP16Alt with micro-scaling
off, the 8-bit-quad routine over `m_size * k_size / 4` words for FP8 and FP8Alt
and whenever micro-scaling is on; its result is the `errors` that `main` stores
last and returns. The format codes are taken to be pairwise distinct, and the
`Float*` codes to fit a `uint8_t`. -/
theorem compare_selection (b : Build) (env : Env) (out : Outcome)
    (hM : b.M_SIZE < 65536) (hK : b.K_SIZE < 65536)
    (hprod : b.M_SIZE * b.K_SIZE < 2 ^ 31)
    (hsrc : b.MX_ENABLE = true ∨ b.SRC_FMT ∈ [b.FP8, b.FP8ALT, b.FP16, b.FP16ALT])
    (hFP : [b.FP8, b.FP8ALT, b.FP16, b.FP16ALT].Nodup)
    (hFloat : [b.Float8, b.Float8Alt, b.Float16, b.Float16Alt].Nodup)
    (h8 : ∀ c ∈ [b.Float8, b.Float8Alt, b.Float16, b.Float16Alt], c < 256)
    (h : main b env = some out) :
    ∃ g : Golden,
      out.trace.filter isCompare =
        [Event.compare (spec_compare b).1 g (spec_compare b).2] ∧
      out.errors = env.compare_int (spec_compare b).1 g (spec_compare b).2 ∧
      out.trace.getLast? = some (Event.store out.errors) := by
  obtain ⟨pre, v, post, -, hpre, -, rfl⟩ := main_some b env out h
  obtain ⟨g, hg⟩ := check_eq_spec b env hM hK hprod hsrc hFP hFloat h8
  refine ⟨g, ?_, ?_, ?_⟩
  · show (main_trace b env pre v).filter isCompare = _
    rw [filter_compare_main_trace b env pre v hpre, hg]
  · show (check b env (uint16_t b.M_SIZE) (uint16_t b.K_SIZE) (float_fmt b)).2 = _
    rw [hg]
  · exact getLast_main_trace b env pre v

/-- Witness for C10, amended: `m = 5`, `k = 3` with micro-scaling on gives the
8-bit-quad comparison over 3 words. -/
theorem compare_selection_witness :
    (mx_build.M_SIZE < 65536 ∧ mx_build.K_SIZE < 65536 ∧
      mx_build.M_SIZE * mx_build.K_SIZE < 2 ^ 31 ∧
      (mx_build.MX_ENABLE = true ∨
        mx_build.SRC_FMT ∈ [mx_build.FP8, mx_build.FP8ALT, mx_build.FP16, mx_build.FP16ALT]) ∧
      [mx_build.FP8, mx_build.FP8ALT, mx_build.FP16, mx_build.FP16ALT].Nodup ∧
      [mx_build.Float8, mx_build.Float8Alt, mx_build.Float16, mx_build.Float16Alt].Nodup ∧
      (∀ c ∈ [mx_build.Float8, mx_build.Float8Alt, mx_build.Float16, mx_build.Float16Alt],
        c < 256) ∧
      main mx_build sample_env = some mx_run) ∧
    (∃ g : Golden,
      mx_run.trace.filter isCompare =
        [Event.compare (spec_compare mx_build).1 g (spec_compare mx_build).2] ∧
      mx_run.errors = sample_env.compare_int (spec_compare mx_build).1 g
        (spec_compare mx_build).2 ∧
      mx_run.trace.getLast? = some (Event.store mx_run.errors)) ∧
    spec_compare mx_build = (Compare.redmule8_compare_int, 3) :=
  ⟨⟨by decide, by decide, by decide, by decide, by decide, by decide, by decide, by decide⟩,
    compare_selection mx_build sample_env mx_run (by decide) (by decide) (by decide)
      (by decide) (by decide) (by decide) (by decide) (by decide),
    by decide⟩

end RedMulE
